import Mathlib

/-!
Shallow embedding of `count_reads_bridging_ends.py`: SAM-line parsing
(`sam_entry`), CIGAR interpretation (`cigar`), the name-grouping stream
(`sam_per_read.next`), and the bridge evaluator
(`sameReadForward`, `sameReadReverse`, `pairedReads`,
`singleReadSegmentBridges`, `pairedReadBridge`).

Python runtime errors (TypeError from arithmetic or subscripting on
`None`, AttributeError from a misspelled attribute) are modelled with
`Except PyErr`; Python's lazy `and` is modelled by nesting the
conditional tests in evaluation order, so an erroring subexpression is
only reached when the conjuncts before it are true.  String splitting
and scanning are done on `List Char` so that every definition evaluates
by kernel reduction.
-/

/-- Python runtime errors that the bridge-evaluator code can raise. -/
inductive PyErr where
  /-- Models `TypeError`: arithmetic/comparison/subscript involving `None`. -/
  | typeError : PyErr
  /-- Models `AttributeError`: access to the misspelled attribute `b.flat`. -/
  | attributeError : PyErr
deriving DecidableEq, Repr

/-- Fatal errors raised while constructing a `sam_entry` from a line
(`ValueError` for a header line, `AssertionError` for too few fields,
`ValueError` from `int()` on a non-numeric field). -/
inductive SamFail where
  | headerLine : SamFail
  | tooFewFields : SamFail
  | badInt : SamFail
deriving DecidableEq, Repr

deriving instance DecidableEq for Except

/-- Value of `int()` on a digit string (base 10). -/
def natOfDigits (ds : List Char) : Nat :=
  ds.foldl (fun n c => 10 * n + (c.toNat - '0'.toNat)) 0

/-- Model of `line.split('\t')` on explicit characters (Python
`str.split` with an explicit separator: `""` gives `[""]`, separators
at the ends give empty fields). -/
def splitTab : List Char → List (List Char)
  | [] => [[]]
  | c :: cs =>
      if c = '\t' then [] :: splitTab cs
      else
        match splitTab cs with
        | [] => [[c]]
        | f :: r => (c :: f) :: r

/-- Model of `line.rstrip('\n')`: drop every trailing newline character. -/
def rstripNl (l : List Char) : List Char :=
  (l.reverse.dropWhile (· = '\n')).reverse

/-- Model of Python `int(s)` on a field: optional sign followed by at
least one decimal digit; anything else raises `ValueError` (returns
`none`). -/
def pyInt (l : List Char) : Option Int :=
  match l with
  | [] => none
  | '-' :: ds =>
      if ds ≠ [] ∧ ds.all Char.isDigit then some (-(natOfDigits ds : Int)) else none
  | '+' :: ds =>
      if ds ≠ [] ∧ ds.all Char.isDigit then some (natOfDigits ds : Int) else none
  | ds =>
      if ds.all Char.isDigit then some (natOfDigits ds : Int) else none

/-- Model of `line.startswith('@')` for a single-character marker. -/
def pyStartsWith (s : String) (c : Char) : Bool :=
  match s.data with
  | [] => false
  | d :: _ => d = c

/-- One parsed SAM alignment line (class `sam_entry`).  The field
`flag` is kept as `Nat`: the SAM FLAG field is an unsigned bitmask and
the code only uses it through bitwise `&` with fixed masks. -/
structure sam_entry where
  qname : String
  flag : Nat
  rname : String
  pos : Int
  mapq : Int
  cigar : String
  rnext : String
  pnext : Int
  tlen : Int
  seq : String
  qual : String
deriving DecidableEq, Repr

/-- Constructor `sam_entry.__init__`: reject header lines, split on
tabs, require at least 11 fields, convert fields 1, 3, 4, 7, 8 with
`int()`. -/
def mkSamEntry (line : String) : Except SamFail sam_entry :=
  if pyStartsWith line '@' then .error .headerLine
  else
    let cols := splitTab (rstripNl line.data)
    if cols.length < 11 then .error .tooFewFields
    else
      match pyInt (cols.getD 1 []), pyInt (cols.getD 3 []), pyInt (cols.getD 4 []),
            pyInt (cols.getD 7 []), pyInt (cols.getD 8 []) with
      | some flag, some pos, some mapq, some pnext, some tlen =>
          .ok { qname := ⟨cols.getD 0 []⟩, flag := flag.toNat, rname := ⟨cols.getD 2 []⟩,
                pos := pos, mapq := mapq, cigar := ⟨cols.getD 5 []⟩,
                rnext := ⟨cols.getD 6 []⟩, pnext := pnext, tlen := tlen,
                seq := ⟨cols.getD 9 []⟩, qual := ⟨cols.getD 10 []⟩ }
      | _, _, _, _, _ => .error .badInt

/-- Character class of `re.findall(r'\d+[MINDSHPX=]', ...)`. -/
def cigarOpChars : List Char := ['M', 'I', 'N', 'D', 'S', 'H', 'P', 'X', '=']

/-- Fuel-driven scan equal to `re.findall(r'\d+[MINDSHPX=]', s)`: a
match is a maximal digit run immediately followed by an operation
character (backtracking inside the run always fails because the
shortened run is followed by a digit, which is not in the class),
scanning left to right and resuming after each match.  Each token
becomes the pair `(a[-1:], int(a[:-1]))`. -/
def scanTokF : Nat → List Char → List (Char × Nat)
  | 0, _ => []
  | _, [] => []
  | fuel + 1, c :: cs =>
      if c.isDigit then
        let ds := (c :: cs).takeWhile Char.isDigit
        let rest := (c :: cs).dropWhile Char.isDigit
        match rest with
        | [] => []
        | op :: rest2 =>
            if op ∈ cigarOpChars then (op, natOfDigits ds) :: scanTokF fuel rest2
            else scanTokF fuel rest
      else scanTokF fuel cs

/-- Token list `self.parts` for a non-`'*'` CIGAR string. -/
def scanTok (l : List Char) : List (Char × Nat) := scanTokF l.length l

/-- Parts attribute from `cigar.__init__`: the string `'*'` leaves
`parts` (hence every derived value) as `None`. -/
def cigarParts (s : String) : Option (List (Char × Nat)) :=
  if s = "*" then none else some (scanTok s.data)

/-- Method `cigar.__readLength`: total of M, I, S, X, `=` lengths. -/
def readLengthCalc (ps : List (Char × Nat)) : Nat :=
  ps.foldl (fun l p => if p.1 ∈ ['M', 'I', 'S', 'X', '='] then l + p.2 else l) 0

/-- Method `cigar.__alnLength`: total of M, D, N, `=`, X lengths. -/
def alnLengthCalc (ps : List (Char × Nat)) : Nat :=
  ps.foldl (fun l p => if p.1 ∈ ['M', 'D', 'N', '=', 'X'] then l + p.2 else l) 0

/-- List `subs` built by `cigar.readMatchStartStop`: a cursor `i`
advances over S and M/I/X/= lengths, recording the cursor value for
each soft-clipped read position. -/
def subsOf (ps : List (Char × Nat)) : List Nat :=
  (ps.foldl
    (fun st p =>
      let st1 : Nat × List Nat :=
        if p.1 = 'S' then (st.1 + p.2, st.2 ++ (List.range p.2).map (· + st.1)) else st
      if p.1 ∈ ['M', 'I', 'X', '='] then (st1.1 + p.2, st1.2) else st1)
    ((0, []) : Nat × List Nat)).2

/-- Body of `cigar.readMatchStartStop` once `readLength` is known to be
an integer `L`: positions `[1..L]`, pop the soft-clipped indices in
reverse order, return `None` on an empty remainder, else the pair
`(min(poss), max(poss))` (Python's `min`/`max` of a nonempty list are
left folds over its head and tail). -/
def rmssCalc (L : Nat) (ps : List (Char × Nat)) : Option (Nat × Nat) :=
  let poss := (List.range L).map (· + 1)
  let kept := ((subsOf ps).reverse).foldl (fun l i => l.eraseIdx i) poss
  match kept with
  | [] => none
  | x :: xs => some (xs.foldl min x, xs.foldl max x)

/-- Attribute `cigar(s).readLength`. -/
def cigarReadLength (s : String) : Option Nat :=
  (cigarParts s).map readLengthCalc

/-- Attribute `cigar(s).alnLength`. -/
def cigarAlnLength (s : String) : Option Nat :=
  (cigarParts s).map alnLengthCalc

/-- The `cigar` class: the constructor stores the string and the
derived attributes. -/
structure cigar where
  cigarString : String
  parts : Option (List (Char × Nat))
  readLength : Option Nat
  alnLength : Option Nat
deriving DecidableEq, Repr

/-- Constructor `cigar.__init__` assembled into the attribute record. -/
def cigarInit (s : String) : cigar :=
  { cigarString := s, parts := cigarParts s,
    readLength := cigarReadLength s, alnLength := cigarAlnLength s }

/-- Method `readMatchStartStop` of a constructed `cigar` object:
`None` when `readLength` is `None` (i.e. the string was `'*'`). -/
def cigar.readMatchStartStop (c : cigar) : Option (Nat × Nat) :=
  match c.readLength, c.parts with
  | some L, some ps => rmssCalc L ps
  | _, _ => none

/-- Literal characters of the anchor `_length_`. -/
def lengthTagChars : List Char := ['_', 'l', 'e', 'n', 'g', 't', 'h', '_']

/-- Whether the first list is an initial segment of the second. -/
def leadsWith : List Char → List Char → Bool
  | [], _ => true
  | _ :: _, [] => false
  | a :: as, b :: bs => a = b && leadsWith as bs

/-- One anchored attempt of the regex `_length_(\d+)_`: the literal
anchor, then a maximal nonempty digit run, then `_` (shortening the
greedy digit run cannot help because the next character would then be
a digit, not `_`). -/
def matchLengthAt (s : List Char) : Option Nat :=
  if leadsWith lengthTagChars s then
    let rest := s.drop 8
    let ds := rest.takeWhile Char.isDigit
    let rest2 := rest.dropWhile Char.isDigit
    if ds = [] then none
    else
      match rest2 with
      | '_' :: _ => some (natOfDigits ds)
      | _ => none
  else none

/-- Scan of `re.search` for `lenFromContigName` over the characters:
leftmost successful anchored match. -/
def lenFromChars : List Char → Option Nat
  | [] => none
  | c :: cs =>
      match matchLengthAt (c :: cs) with
      | some n => some n
      | none => lenFromChars cs

/-- Function `lenFromContigName(contigNameStr)`. -/
def lenFromContigName (s : String) : Option Nat :=
  lenFromChars s.data

/-- Function `sameReadForward(a, b)`. -/
def sameReadForward (a b : sam_entry) : Bool :=
  a.flag &&& 0x4 == 0 && b.flag &&& 0x4 == 0 &&
  a.flag &&& 0x40 == b.flag &&& 0x40 &&
  a.flag &&& 0x10 == 0 && b.flag &&& 0x10 == 0

/-- Function `sameReadReverse(a, b)`.  The source tests
`b.flag & 0x10 == 1`, which compares a value in `{0, 16}` against `1`. -/
def sameReadReverse (a b : sam_entry) : Bool :=
  a.flag &&& 0x4 == 0 && b.flag &&& 0x4 == 0 &&
  a.flag &&& 0x40 == b.flag &&& 0x40 &&
  a.flag &&& 0x10 != 0 && b.flag &&& 0x10 == 1

/-- Return values of `pairedReads`: `False`, `'R1R2'` or `'R2R1'`. -/
inductive PyPairRes where
  | falseV : PyPairRes
  | r1r2 : PyPairRes
  | r2r1 : PyPairRes
deriving DecidableEq, Repr

/-- Orientation classification on lines 229-234 of the source.  It is
unreachable at runtime: the guard before it either returns `False` or
raises `AttributeError` (see `pairedReads`). -/
def pairedReadsOrientationDead (a b : sam_entry) : PyPairRes :=
  if a.flag &&& 0x40 = 0 ∧ b.flag &&& 0x80 = 0 then .r1r2
  else if a.flag &&& 0x80 = 0 ∧ b.flag &&& 0x40 = 0 then .r2r1
  else .falseV

/-- Function `pairedReads(a, b)`.  The guard is
`a.flag & 0x1 != 0 and b.flag & 0x1 != 0 and a.flag & 0x4 != 0 and b.flat & 0x4 != 0`:
evaluated lazily, it returns `False` unless both paired bits are set
and `a`'s *unmapped* bit is set (the test is inverted relative to the
docstring), in which case evaluating the misspelled `b.flat` raises
`AttributeError`.  The orientation branch
(`pairedReadsOrientationDead`) is therefore never reached. -/
def pairedReads (a b : sam_entry) : Except PyErr PyPairRes :=
  if a.flag &&& 0x1 ≠ 0 ∧ b.flag &&& 0x1 ≠ 0 then
    if a.flag &&& 0x4 ≠ 0 then .error .attributeError
    else .ok .falseV
  else .ok .falseV

/-- Common strand marker of `singleReadSegmentBridges`. -/
inductive Strand where
  | forward : Strand
  | reverse : Strand
deriving DecidableEq, Repr

/-- Lines 249-282 of `singleReadSegmentBridges`, after the strand has
been fixed.  A `'*'` CIGAR gives `parts = None`, hence
`readMatchStartStop() = None`, hence `False`; in the surviving branch
`read_length` and the two `alnLength`s are the integers computed from
the parts.  Each of the four wrap tests evaluates
`template_length - ... <= read_length` only when its geometric
condition holds; if `lenFromContigName` gave `None` that arithmetic
raises `TypeError`. -/
def bridgeBody (strand : Strand) (a b : sam_entry) : Except PyErr Bool :=
  if a.rname ≠ b.rname then .ok false
  else
    let T? := lenFromContigName a.rname
    match cigarParts a.cigar, cigarParts b.cigar with
    | none, _ => .ok false
    | _, none => .ok false
    | some aPs, some bPs =>
      let rl : Nat := readLengthCalc aPs
      match rmssCalc rl aPs, rmssCalc (readLengthCalc bPs) bPs with
      | none, _ => .ok false
      | _, none => .ok false
      | some (amn, amx), some (bmn, bmx) =>
        let aAln : Int := (alnLengthCalc aPs : Int)
        let bAln : Int := (alnLengthCalc bPs : Int)
        let c4 : Except PyErr Bool :=
          if bmx < amn ∧ b.pos + bAln < a.pos ∧ strand = Strand.reverse then
            match T? with
            | none => .error .typeError
            | some T =>
                if (T : Int) - a.pos + b.pos + bAln ≤ (rl : Int) then .ok true else .ok false
          else .ok false
        let c3 : Except PyErr Bool :=
          if amx < bmn ∧ a.pos + aAln < b.pos ∧ strand = Strand.reverse then
            match T? with
            | none => .error .typeError
            | some T =>
                if (T : Int) - b.pos + a.pos + aAln ≤ (rl : Int) then .ok true else c4
          else c4
        let c2 : Except PyErr Bool :=
          if bmx < amn ∧ b.pos > a.pos + aAln ∧ strand = Strand.forward then
            match T? with
            | none => .error .typeError
            | some T =>
                if (T : Int) - b.pos + a.pos + aAln ≤ (rl : Int) then .ok true else c3
          else c3
        if amx < bmn ∧ a.pos > b.pos + bAln ∧ strand = Strand.forward then
          match T? with
          | none => .error .typeError
          | some T =>
              if (T : Int) - a.pos + b.pos + bAln ≤ (rl : Int) then .ok true else c2
        else c2

/-- Function `singleReadSegmentBridges(a, b)`. -/
def singleReadSegmentBridges (a b : sam_entry) : Except PyErr Bool :=
  if sameReadForward a b then bridgeBody .forward a b
  else if sameReadReverse a b then bridgeBody .reverse a b
  else .ok false

/-- Global `maxInsertSize = 500`. -/
def maxInsertSizeDefault : Int := 500

/-- Function `pairedReadBridge(a, b, maxInsertSize)`.  Result
`some true/false` models `return True/False`; `none` models falling
off the end of the function (Python returns `None`).
`aAlnLen`/`bAlnLen` subscript `readMatchStartStop()` without a `None`
guard, so a `'*'` CIGAR (or an entirely soft-clipped read) raises
`TypeError` (`None[1]`).  The second condition of each orientation
branch is `x.flag & 0x10 == 0 & y.flag & 0x10 != 0`, which parses as
the chained comparison
`(x.flag & 0x10) == ((0 & y.flag) & 0x10) != 0`; its second link
compares `0 != 0`, so the whole test is always false. -/
def pairedReadBridge (a b : sam_entry) (maxInsertSize : Int) :
    Except PyErr (Option Bool) :=
  if a.rname ≠ b.rname then .ok (some false)
  else
    let T? := lenFromContigName a.rname
    match (cigarInit a.cigar).readMatchStartStop with
    | none => .error .typeError
    | some (amn, amx) =>
      match (cigarInit b.cigar).readMatchStartStop with
      | none => .error .typeError
      | some (bmn, bmx) =>
        let aAlnLen : Int := (amx : Int) - (amn : Int) + 1
        let bAlnLen : Int := (bmx : Int) - (bmn : Int) + 1
        match pairedReads a b with
        | .error e => .error e
        | .ok .r1r2 =>
            let k2 : Except PyErr (Option Bool) :=
              if ((a.flag &&& 0x10 = (0 &&& b.flag) &&& 0x10 ∧ (0 &&& b.flag) &&& 0x10 ≠ 0) ∧
                  b.pos > a.pos + aAlnLen) then
                match T? with
                | none => .error .typeError
                | some T =>
                    if (T : Int) - b.pos + a.pos + aAlnLen ≤ maxInsertSize then .ok (some true)
                    else .ok none
              else .ok none
            if a.flag &&& 0x10 ≠ 0 ∧ b.flag &&& 0x10 = 0 ∧ a.pos > b.pos + bAlnLen then
              match T? with
              | none => .error .typeError
              | some T =>
                  if (T : Int) - a.pos + b.pos + bAlnLen ≤ maxInsertSize then .ok (some true)
                  else k2
            else k2
        | .ok .r2r1 =>
            let k2 : Except PyErr (Option Bool) :=
              if ((b.flag &&& 0x10 = (0 &&& a.flag) &&& 0x10 ∧ (0 &&& a.flag) &&& 0x10 ≠ 0) ∧
                  a.pos > b.pos + bAlnLen) then
                match T? with
                | none => .error .typeError
                | some T =>
                    if (T : Int) - a.pos + b.pos + bAlnLen ≤ maxInsertSize then .ok (some true)
                    else .ok none
              else .ok none
            if b.flag &&& 0x10 ≠ 0 ∧ a.flag &&& 0x10 = 0 ∧ b.pos > a.pos + aAlnLen then
              match T? with
              | none => .error .typeError
              | some T =>
                  if (T : Int) - b.pos + a.pos + aAlnLen ≤ maxInsertSize then .ok (some true)
                  else k2
            else k2
        | .ok .falseV => .ok (some false)

/-- One row of the read-group stream:
`readline().rstrip('\n').split('\t')`. -/
def rowOf (l : List Char) : List (List Char) :=
  splitTab (rstripNl l)

/-- Method `sam_per_read.next` iterated to exhaustion over a list of
lines.  Each group starts at the next line; the loop keeps appending
while the first tab field equals the first field of the group's first
line (`currlines[0][0]`); a line splitting to `['']` (i.e. an empty
line, as also produced by reading at end of file) stops the stream. -/
def samPerRead : List String → List (List (List (List Char)))
  | [] => []
  | l :: ls =>
      let row := rowOf l.data
      if row = [[]] then []
      else
        let isSame : String → Bool := fun l2 => (rowOf l2.data).headI == row.headI
        (row :: (ls.takeWhile isSame).map (fun l2 => rowOf l2.data)) ::
          samPerRead (ls.dropWhile isSame)
termination_by l => l.length
decreasing_by
  simp only [List.length_cons]
  exact Nat.lt_succ_of_le (List.dropWhile_sublist _).length_le

theorem foldl_min_mem (xs : List Nat) : ∀ x, xs.foldl min x ∈ x :: xs := by
  induction xs with
  | nil => intro x; simp
  | cons y ys ih =>
      intro x
      rw [List.foldl_cons]
      rcases List.mem_cons.mp (ih (min x y)) with h1 | h1
      · rw [h1]
        rcases min_choice x y with h2 | h2 <;> rw [h2] <;> simp
      · exact List.mem_cons_of_mem x (List.mem_cons_of_mem y h1)

theorem foldl_max_mem (xs : List Nat) : ∀ x, xs.foldl max x ∈ x :: xs := by
  induction xs with
  | nil => intro x; simp
  | cons y ys ih =>
      intro x
      rw [List.foldl_cons]
      rcases List.mem_cons.mp (ih (max x y)) with h1 | h1
      · rw [h1]
        rcases max_choice x y with h2 | h2 <;> rw [h2] <;> simp
      · exact List.mem_cons_of_mem x (List.mem_cons_of_mem y h1)

theorem foldl_min_le (xs : List Nat) : ∀ x, xs.foldl min x ≤ x := by
  induction xs with
  | nil => intro x; simp
  | cons y ys ih =>
      intro x
      rw [List.foldl_cons]
      exact le_trans (ih (min x y)) (min_le_left x y)

theorem le_foldl_max (xs : List Nat) : ∀ x, x ≤ xs.foldl max x := by
  induction xs with
  | nil => intro x; simp
  | cons y ys ih =>
      intro x
      rw [List.foldl_cons]
      exact le_trans (le_max_left x y) (ih (max x y))

theorem foldl_eraseIdx_sublist (ks : List Nat) :
    ∀ l : List Nat, List.Sublist (ks.foldl (fun acc k => acc.eraseIdx k) l) l := by
  induction ks with
  | nil => intro l; exact List.Sublist.refl l
  | cons k ks ih =>
      intro l
      rw [List.foldl_cons]
      exact (ih (l.eraseIdx k)).trans (List.eraseIdx_sublist l k)

theorem rmssCalc_bounds {L : Nat} {ps : List (Char × Nat)} {mn mx : Nat}
    (h : rmssCalc L ps = some (mn, mx)) :
    1 ≤ mn ∧ mn ≤ L ∧ 1 ≤ mx ∧ mx ≤ L ∧ mn ≤ mx := by
  simp only [rmssCalc] at h
  cases hk : ((subsOf ps).reverse).foldl (fun l i => l.eraseIdx i)
      ((List.range L).map (· + 1)) with
  | nil => rw [hk] at h; simp at h
  | cons x xs =>
      rw [hk] at h
      simp only [Option.some.injEq, Prod.mk.injEq] at h
      obtain ⟨hmn, hmx⟩ := h
      have hsub := foldl_eraseIdx_sublist (subsOf ps).reverse ((List.range L).map (· + 1))
      rw [hk] at hsub
      have hmnmem : mn ∈ (List.range L).map (· + 1) :=
        hsub.subset (hmn ▸ foldl_min_mem xs x)
      have hmxmem : mx ∈ (List.range L).map (· + 1) :=
        hsub.subset (hmx ▸ foldl_max_mem xs x)
      obtain ⟨a, ha, hae⟩ := List.mem_map.mp hmnmem
      obtain ⟨b, hb, hbe⟩ := List.mem_map.mp hmxmem
      rw [List.mem_range] at ha hb
      have h1 : mn ≤ x := hmn ▸ foldl_min_le xs x
      have h2 : x ≤ mx := hmx ▸ le_foldl_max xs x
      omega

theorem takeWhile_append_all {α : Type} (p : α → Bool) (xs ys : List α)
    (h : ∀ x ∈ xs, p x) :
    (xs ++ ys).takeWhile p = xs ++ ys.takeWhile p := by
  induction xs with
  | nil => simp
  | cons a as ih =>
      have ha : p a := h a (List.mem_cons_self a as)
      simp only [List.cons_append, List.takeWhile_cons, ha, if_true]
      rw [ih (fun x hx => h x (List.mem_cons_of_mem a hx))]

theorem dropWhile_append_all {α : Type} (p : α → Bool) (xs ys : List α)
    (h : ∀ x ∈ xs, p x) :
    (xs ++ ys).dropWhile p = ys.dropWhile p := by
  induction xs with
  | nil => simp
  | cons a as ih =>
      have ha : p a := h a (List.mem_cons_self a as)
      simp only [List.cons_append, List.dropWhile_cons, ha, if_true]
      exact ih (fun x hx => h x (List.mem_cons_of_mem a hx))

theorem samPerRead_cons (l : String) (ls : List String)
    (h : rowOf l.data ≠ [[]]) :
    samPerRead (l :: ls) =
      (rowOf l.data ::
        (ls.takeWhile (fun l2 => (rowOf l2.data).headI == (rowOf l.data).headI)).map
          (fun l2 => rowOf l2.data)) ::
        samPerRead
          (ls.dropWhile (fun l2 => (rowOf l2.data).headI == (rowOf l.data).headI)) := by
  rw [samPerRead]
  simp [h]

theorem samPerRead_block (nm : List Char) (l : String) (ls rest : List String)
    (hnm : nm ≠ []) (hall : ∀ x ∈ l :: ls, (rowOf x.data).headI = nm)
    (hrest : rest = [] ∨ ∃ r rs, rest = r :: rs ∧ (rowOf r.data).headI ≠ nm) :
    samPerRead ((l :: ls) ++ rest) =
      ((l :: ls).map (fun x => rowOf x.data)) :: samPerRead rest := by
  have hl : (rowOf l.data).headI = nm := hall l (List.mem_cons_self l ls)
  have hne : rowOf l.data ≠ [[]] := by
    intro hh
    rw [hh] at hl
    exact hnm (by simpa using hl.symm)
  rw [List.cons_append, samPerRead_cons l (ls ++ rest) hne]
  have hpred : ∀ x ∈ ls, ((rowOf x.data).headI == (rowOf l.data).headI) = true := by
    intro x hx
    rw [hall x (List.mem_cons_of_mem l hx), hl]
    exact beq_self_eq_true nm
  rw [takeWhile_append_all _ ls rest hpred, dropWhile_append_all _ ls rest hpred]
  have htw : rest.takeWhile (fun l2 => (rowOf l2.data).headI == (rowOf l.data).headI) = []
      ∧ rest.dropWhile (fun l2 => (rowOf l2.data).headI == (rowOf l.data).headI) = rest := by
    rcases hrest with h | ⟨r, rs, rfl, hr⟩
    · subst h; exact ⟨rfl, rfl⟩
    · have hf : ((rowOf r.data).headI == (rowOf l.data).headI) = false := by
        rw [hl]
        exact beq_eq_false_iff_ne.mpr hr
      constructor
      · simp [List.takeWhile_cons, hf]
      · simp [List.dropWhile_cons, hf]
  rw [htw.1, htw.2]
  simp

set_option maxRecDepth 8000 in
/-- Claim C1: the spec requires that contig-length lookup failure, a
`'*'` CIGAR, or an empty matched read range always yield a `NoBridge`
(`false`) verdict from `singleReadSegmentBridges` and
`pairedReadBridge` with no exception.  The code violates this: with an
unresolvable reference name and wrap geometry that fires,
`singleReadSegmentBridges` evaluates `None - int` (`TypeError`), and
`pairedReadBridge` subscripts `readMatchStartStop()` with no guard, so
a `'*'` CIGAR raises `TypeError` (`None[1]`). -/
theorem claim_bridge_failure_semantics :
    singleReadSegmentBridges
      ⟨"q", 0, "contig1", 950, 60, "60M40S", "*", 0, 0, "A", "I"⟩
      ⟨"q", 0, "contig1", 10, 60, "60S40M", "*", 0, 0, "A", "I"⟩ = .error .typeError ∧
    pairedReadBridge
      ⟨"q", 65, "NODE_1_length_1000_cov_5", 950, 60, "*", "*", 0, 0, "A", "I"⟩
      ⟨"q", 129, "NODE_1_length_1000_cov_5", 10, 60, "40M", "*", 0, 0, "A", "I"⟩ 500 =
      .error .typeError := by
  constructor
  · decide
  · decide

/-- Claim C2: for a mapped, paired, mate-complementary pair the spec
(and the function's own docstring) says `pairedReads` returns `'R1R2'`
(resp. `'R2R1'`).  The code returns `False` for both orders: its guard
requires the *unmapped* bit `0x4` to be set (inverted test), and would
otherwise raise `AttributeError` on the misspelled `b.flat`.  Flags
`0x41`/`0x81` are mapped (bit `0x4` clear), paired, first/second in
pair. -/
theorem claim_paired_orientation :
    pairedReads
      ⟨"q", 0x41, "c", 10, 60, "50M", "=", 400, 440, "A", "I"⟩
      ⟨"q", 0x81, "c", 400, 60, "50M", "=", 10, -440, "A", "I"⟩ = .ok .falseV ∧
    pairedReads
      ⟨"q", 0x81, "c", 400, 60, "50M", "=", 10, -440, "A", "I"⟩
      ⟨"q", 0x41, "c", 10, 60, "50M", "=", 400, 440, "A", "I"⟩ = .ok .falseV := by
  constructor
  · decide
  · decide

set_option maxRecDepth 8000 in
/-- Claim C3: two mapped same-reference records agreeing on the
first-in-pair bit, both reverse strand (flag 16), with `a`'s matched
range (1,60) ending before `b`'s (61,100), `a.pos + a.alnLength =
61 < 961 = b.pos`, and wrap span `1000 - 961 + 1 + 60 = 100 ≤ 100 =
readLength`: the claim says `singleReadSegmentBridges` returns true,
but the code returns false because `sameReadReverse` tests
`b.flag & 0x10 == 1`, which can never hold (the value is 0 or 16), so
no reverse-strand pair ever gets a strand assigned. -/
theorem claim_reverse_bridge :
    sameReadReverse
      ⟨"q", 16, "NODE_1_length_1000_cov_5", 1, 60, "60M40S", "*", 0, 0, "A", "I"⟩
      ⟨"q", 16, "NODE_1_length_1000_cov_5", 961, 60, "60S40M", "*", 0, 0, "A", "I"⟩ = false ∧
    singleReadSegmentBridges
      ⟨"q", 16, "NODE_1_length_1000_cov_5", 1, 60, "60M40S", "*", 0, 0, "A", "I"⟩
      ⟨"q", 16, "NODE_1_length_1000_cov_5", 961, 60, "60S40M", "*", 0, 0, "A", "I"⟩ = .ok false := by
  constructor
  · decide
  · decide

set_option maxRecDepth 8000 in
/-- Claim C4: two forward-strand mapped records on a contig whose name
encodes length 1000, `a.pos = 950` with matched read range up to 60
(CIGAR `60M40S`, readLength 100), `b.pos = 10` with matched range from
61 and alignment length 40 (CIGAR `60S40M`): wrap span
`1000 - 950 + 10 + 40 = 100 ≤ 100`, so `singleReadSegmentBridges`
returns true. -/
theorem claim_forward_wrap_example :
    singleReadSegmentBridges
      ⟨"q", 0, "NODE_1_length_1000_cov_5", 950, 60, "60M40S", "*", 0, 0, "A", "I"⟩
      ⟨"q", 0, "NODE_1_length_1000_cov_5", 10, 60, "60S40M", "*", 0, 0, "A", "I"⟩ = .ok true := by
  decide

/-- Claim C5: parsing the CIGAR sentinel `'*'` yields `Absent` for all
three derived quantities: `readLength`, `alnLength` and
`readMatchStartStop()` are all `None`. -/
theorem claim_star_cigar_absent :
    (cigarInit "*").readLength = none ∧ (cigarInit "*").alnLength = none ∧
    (cigarInit "*").readMatchStartStop = none := by
  decide

/-- Claim C6: the read-group stream yields zero groups on empty input;
on `n` lines sharing one (nonempty) query name it yields exactly one
group of size `n`; on consecutive blocks of lines with pairwise
distinct (nonempty) names it yields exactly one group per block, in
first-seen input order. -/
theorem claim_read_group_stream :
    (samPerRead [] = []) ∧
    (∀ (nm : List Char) (lines : List String), nm ≠ [] → lines ≠ [] →
       (∀ l ∈ lines, (rowOf l.data).headI = nm) →
       samPerRead lines = [lines.map (fun l => rowOf l.data)]) ∧
    (∀ blocks : List (List Char × List String),
       (∀ bk ∈ blocks, bk.1 ≠ [] ∧ bk.2 ≠ [] ∧ ∀ l ∈ bk.2, (rowOf l.data).headI = bk.1) →
       blocks.Pairwise (fun bk ck => bk.1 ≠ ck.1) →
       samPerRead ((blocks.map Prod.snd).flatten) =
         blocks.map (fun bk => bk.2.map (fun l => rowOf l.data))) := by
  refine ⟨by rw [samPerRead], ?_, ?_⟩
  · intro nm lines hnm hne hall
    obtain ⟨l, ls, rfl⟩ : ∃ l ls, lines = l :: ls := by
      cases lines with
      | nil => exact absurd rfl hne
      | cons a as => exact ⟨a, as, rfl⟩
    have h := samPerRead_block nm l ls [] hnm hall (Or.inl rfl)
    rw [List.append_nil] at h
    rw [h, samPerRead]
  · intro blocks
    induction blocks with
    | nil =>
        intro _ _
        simpa using (by rw [samPerRead] : samPerRead [] = [])
    | cons bk bks ih =>
        intro hblocks hpw
        obtain ⟨nm, bl⟩ := bk
        obtain ⟨hnm, hblne, hall⟩ := hblocks (nm, bl) (List.mem_cons_self _ _)
        obtain ⟨l, ls, rfl⟩ : ∃ l ls, bl = l :: ls := by
          cases bl with
          | nil => exact absurd rfl hblne
          | cons a as => exact ⟨a, as, rfl⟩
        rw [List.pairwise_cons] at hpw
        have hrest : (bks.map Prod.snd).flatten = [] ∨
            ∃ r rs, (bks.map Prod.snd).flatten = r :: rs ∧ (rowOf r.data).headI ≠ nm := by
          cases bks with
          | nil => exact Or.inl rfl
          | cons ck bks2 =>
              obtain ⟨_, hckne, hckall⟩ :=
                hblocks ck (List.mem_cons_of_mem _ (List.mem_cons_self _ _))
              obtain ⟨r, rs, hck⟩ : ∃ r rs, ck.2 = r :: rs := by
                cases hc : ck.2 with
                | nil => exact absurd hc hckne
                | cons a as => exact ⟨a, as, rfl⟩
              refine Or.inr ⟨r, rs ++ (bks2.map Prod.snd).flatten, ?_, ?_⟩
              · simp [hck]
              · rw [hckall r (by rw [hck]; exact List.mem_cons_self r rs)]
                exact fun he => (hpw.1 ck (List.mem_cons_self _ _)) he.symm
        have hflat : ((((nm, l :: ls) :: bks).map Prod.snd).flatten) =
            (l :: ls) ++ (bks.map Prod.snd).flatten := by simp
        rw [hflat, samPerRead_block nm l ls _ hnm hall hrest,
          ih (fun b hb => hblocks b (List.mem_cons_of_mem _ hb)) hpw.2]
        simp

/-- Witness for claim C6: two blocks named `r1` and `r2` produce
exactly the two groups, in order. -/
theorem claim_read_group_stream_witness :
    samPerRead (([((['r', '1'] : List Char), (["r1\ta", "r1\tb"] : List String)),
        (['r', '2'], ["r2\tc"])].map Prod.snd).flatten) =
      [((['r', '1'] : List Char), (["r1\ta", "r1\tb"] : List String)),
        (['r', '2'], ["r2\tc"])].map (fun bk => bk.2.map (fun l => rowOf l.data)) :=
  claim_read_group_stream.2.2 _ (by decide) (by decide)

/-- Claim C7: a non-header line with fewer than 11 tab-separated
fields, or whose flag, position, mapping-quality, mate-position or
template-length field does not parse as an integer, makes
`mkSamEntry` fail with a fatal format error and produce no record. -/
theorem claim_sam_entry_format_error (line : String)
    (hhdr : pyStartsWith line '@' = false)
    (hbad : (splitTab (rstripNl line.data)).length < 11 ∨
        pyInt ((splitTab (rstripNl line.data)).getD 1 []) = none ∨
        pyInt ((splitTab (rstripNl line.data)).getD 3 []) = none ∨
        pyInt ((splitTab (rstripNl line.data)).getD 4 []) = none ∨
        pyInt ((splitTab (rstripNl line.data)).getD 7 []) = none ∨
        pyInt ((splitTab (rstripNl line.data)).getD 8 []) = none) :
    ∃ e, mkSamEntry line = .error e := by
  unfold mkSamEntry
  rw [hhdr]
  simp only [Bool.false_eq_true, if_false]
  by_cases hlen : (splitTab (rstripNl line.data)).length < 11
  · exact ⟨.tooFewFields, by rw [if_pos hlen]⟩
  · rw [if_neg hlen]
    rcases h1 : pyInt ((splitTab (rstripNl line.data)).getD 1 []) with _ | v1 <;>
      rcases h3 : pyInt ((splitTab (rstripNl line.data)).getD 3 []) with _ | v3 <;>
      rcases h4 : pyInt ((splitTab (rstripNl line.data)).getD 4 []) with _ | v4 <;>
      rcases h7 : pyInt ((splitTab (rstripNl line.data)).getD 7 []) with _ | v7 <;>
      rcases h8 : pyInt ((splitTab (rstripNl line.data)).getD 8 []) with _ | v8 <;>
      simp_all

/-- Witness for claim C7: an 11-field line whose flag field is `X`
(not an integer) is rejected. -/
theorem claim_sam_entry_format_error_witness :
    pyStartsWith "q\tX\tr\t0\t0\t*\t=\t0\t0\tS\tQ" '@' = false ∧
    ∃ e, mkSamEntry "q\tX\tr\t0\t0\t*\t=\t0\t0\tS\tQ" = .error e :=
  ⟨by decide, claim_sam_entry_format_error _ (by decide) (by decide)⟩

/-- Claim C8: whenever `readMatchStartStop()` of a parsed CIGAR is not
`None`, `readLength` is an integer at least the matched-range span
`max - min + 1` (proved for every CIGAR string, in particular those
composed only of valid run-length tokens). -/
theorem claim_readLength_ge_span (s : String) (mn mx : Nat)
    (hmss : (cigarInit s).readMatchStartStop = some (mn, mx)) :
    ∃ L, (cigarInit s).readLength = some L ∧ mx - mn + 1 ≤ L := by
  simp only [cigarInit, cigar.readMatchStartStop, cigarReadLength] at hmss ⊢
  cases hps : cigarParts s with
  | none => rw [hps] at hmss; simp at hmss
  | some ps =>
      rw [hps] at hmss
      simp only [Option.map_some'] at hmss ⊢
      refine ⟨readLengthCalc ps, rfl, ?_⟩
      have hb := rmssCalc_bounds hmss
      omega

/-- Witness for claim C8: the CIGAR `3M` has matched range (1,3) and
readLength 3 ≥ 3. -/
theorem claim_readLength_ge_span_witness :
    ∃ L, (cigarInit "3M").readLength = some L ∧ 3 - 1 + 1 ≤ L :=
  claim_readLength_ge_span "3M" 1 3 (by decide)

/-- Claim C9: if `a`'s paired bit (0x1) is unset, `pairedReadBridge`
never returns `True`, whatever the geometry: the `pairedReads` guard
fails on its first conjunct, so the result is `False` (or a
`TypeError` from the unguarded `readMatchStartStop()` subscripts, but
never `True`). -/
theorem claim_unpaired_never_bridges (a b : sam_entry) (m : Int)
    (h : a.flag &&& 0x1 = 0) :
    pairedReadBridge a b m ≠ .ok (some true) := by
  unfold pairedReadBridge
  by_cases hr : a.rname ≠ b.rname
  · simp [hr]
  · simp only [hr, if_false]
    cases h1 : (cigarInit a.cigar).readMatchStartStop with
    | none => simp
    | some p1 =>
        obtain ⟨amn, amx⟩ := p1
        cases h2 : (cigarInit b.cigar).readMatchStartStop with
        | none => simp
        | some p2 =>
            obtain ⟨bmn, bmx⟩ := p2
            have hp : pairedReads a b = .ok .falseV := by
              unfold pairedReads
              simp [h]
            simp [hp]

/-- Witness for claim C9 at an unpaired record (flag 0). -/
theorem claim_unpaired_never_bridges_witness :
    (⟨"q", 0, "c", 1, 0, "*", "*", 0, 0, "A", "I"⟩ : sam_entry).flag &&& 0x1 = 0 ∧
    pairedReadBridge ⟨"q", 0, "c", 1, 0, "*", "*", 0, 0, "A", "I"⟩
      ⟨"q", 0, "c", 1, 0, "*", "*", 0, 0, "A", "I"⟩ 500 ≠ .ok (some true) :=
  ⟨by decide, claim_unpaired_never_bridges _ _ _ (by decide)⟩

/-- Claim C10: for every alignment record `a`,
`singleReadSegmentBridges a a = false` and no exception is raised: all
four geometric cases require the matched range of one side to end
strictly before the other's starts, impossible when both sides are the
same record because `min ≤ max`. -/
theorem claim_self_pair_no_bridge (a : sam_entry) :
    singleReadSegmentBridges a a = .ok false := by
  have hbody : ∀ s, bridgeBody s a a = .ok false := by
    intro s
    unfold bridgeBody
    rw [if_neg (by simp)]
    cases hc : cigarParts a.cigar with
    | none => simp
    | some ps =>
        cases hr : rmssCalc (readLengthCalc ps) ps with
        | none => simp [hr]
        | some p =>
            obtain ⟨mn, mx⟩ := p
            have hle : ¬ (mx < mn) := not_lt.mpr (rmssCalc_bounds hr).2.2.2.2
            simp [hr, hle]
  unfold singleReadSegmentBridges
  by_cases h1 : sameReadForward a a <;> by_cases h2 : sameReadReverse a a <;>
    simp [h1, h2, hbody]
